import Mathlib

/-!
Verification of the dispatch-and-consume pipeline of the `django-dota2`
repository.

The development shallowly embeds the core pipeline:

* `common/iterables_utils.py`  — `chunked`
* `apps/core/services/processed_ids.py` — `RedisProcessedIDChecker`
  (the Redis set is modelled as a `Finset ℕ`)
* `common/messaging/batching.py` — `_send_match_batches`,
  `schedule_matches_for_processing`
* `common/messaging/reliable.py` — `ReliableBrokerPublisher.publish`
* `infrastructure/worker.py` — `CircuitBreaker`, `_process_chunk`,
  `run_concurrently`, `process_match_batch`, `WorkerMetrics`

Asynchronous effects are made explicit: the outcome of each broker publish
attempt, each domain action attempt, and each jitter sample is supplied by
an oracle function, and the Redis set is threaded through as explicit
state.  Wall-clock time is an explicit rational parameter.
-/

namespace Dota

/-! ### `common/iterables_utils.py` : `chunked` -/

/-- From `chunked` in `common/iterables_utils.py`: repeatedly take `size`
elements from the iterator until it is exhausted.  The Python source raises
`ValueError` for `size <= 0`; that branch is excluded here and every
theorem about `chunked` assumes `0 < size`.  The structural fuel argument
(`l.length` suffices when `0 < size`) replaces the `while` loop. -/
def chunkedAux (size : ℕ) : ℕ → List α → List (List α)
  | 0, _ => []
  | f + 1, l => if l.isEmpty then [] else l.take size :: chunkedAux size f (l.drop size)

/-- The function `chunked(iterable, size)` from `common/iterables_utils.py`. -/
def chunked (l : List α) (size : ℕ) : List (List α) :=
  chunkedAux size l.length l

theorem chunkedAux_flatten (size : ℕ) (hs : 0 < size) :
    ∀ (fuel : ℕ) (l : List α), l.length ≤ fuel → (chunkedAux size fuel l).flatten = l := by
  intro fuel
  induction fuel with
  | zero =>
    intro l h
    have hl : l = [] := List.eq_nil_of_length_eq_zero (Nat.le_zero.mp h)
    subst hl; rfl
  | succ f ih =>
    intro l h
    by_cases hl : l.isEmpty
    · have : l = [] := List.isEmpty_iff.mp hl
      subst this; rfl
    · have hne : l ≠ [] := fun he => hl (by simp [he])
      have hlen : 0 < l.length := List.length_pos.mpr hne
      simp only [chunkedAux, hl, if_neg, Bool.false_eq_true, not_false_iff, reduceIte,
        List.flatten_cons]
      rw [ih (l.drop size) (by simp only [List.length_drop]; omega)]
      exact List.take_append_drop size l

/-- Concatenating the chunks gives back the original list. -/
theorem chunked_flatten (l : List α) (size : ℕ) (hs : 0 < size) :
    (chunked l size).flatten = l :=
  chunkedAux_flatten size hs l.length l le_rfl

theorem chunkedAux_length (size : ℕ) (hs : 0 < size) :
    ∀ (fuel : ℕ) (l : List α), l.length ≤ fuel →
      (chunkedAux size fuel l).length = (l.length + size - 1) / size := by
  intro fuel
  induction fuel with
  | zero =>
    intro l h
    have hl : l = [] := List.eq_nil_of_length_eq_zero (Nat.le_zero.mp h)
    subst hl
    simp [chunkedAux, Nat.div_eq_of_lt (show size - 1 < size by omega)]
  | succ f ih =>
    intro l h
    by_cases hl : l.isEmpty
    · have : l = [] := List.isEmpty_iff.mp hl
      subst this
      simp [chunkedAux, Nat.div_eq_of_lt (show size - 1 < size by omega)]
    · have hne : l ≠ [] := fun he => hl (by simp [he])
      have hlen : 0 < l.length := List.length_pos.mpr hne
      simp only [chunkedAux, hl, Bool.false_eq_true, not_false_iff, reduceIte, List.length_cons]
      rw [ih (l.drop size) (by simp only [List.length_drop]; omega)]
      simp only [List.length_drop]
      rcases Nat.lt_or_ge l.length (size + 1) with hc | hc
      · have h1 : l.length - size = 0 := by omega
        have h2 : l.length + size - 1 = (l.length - 1) + size := by omega
        rw [h1, h2, Nat.add_div_right _ hs,
          Nat.div_eq_of_lt (show l.length - 1 < size by omega),
          Nat.div_eq_of_lt (show 0 + size - 1 < size by omega)]
      · have h2 : l.length + size - 1 = (l.length - size + size - 1) + size := by omega
        rw [h2, Nat.add_div_right _ hs]

/-- The number of chunks is `⌈|l| / size⌉`. -/
theorem chunked_length (l : List α) (size : ℕ) (hs : 0 < size) :
    (chunked l size).length = (l.length + size - 1) / size :=
  chunkedAux_length size hs l.length l le_rfl

/-- Chunks of a duplicate-free list are pairwise disjoint. -/
theorem chunked_pairwise_disjoint (l : List α) (size : ℕ) (hs : 0 < size) (hnd : l.Nodup) :
    (chunked l size).Pairwise List.Disjoint := by
  have hj : (chunked l size).flatten = l := chunked_flatten l size hs
  have h2 : ((chunked l size).flatten).Nodup := by rw [hj]; exact hnd
  exact (List.nodup_flatten.mp h2).2

/-! ### `apps/core/services/processed_ids.py` : `RedisProcessedIDChecker`

The Redis set stored at the checker's key is modelled as a `Finset ℕ`.
`SMISMEMBER` is set membership, `SADD` is union; the TTL refresh and the
transient-error retry loop (`_retry_operation`) have no effect on the
values computed and are not modelled. -/

/-- Model of `RedisProcessedIDChecker._process_batch`: query membership for one
batch, keep the IDs not yet present, and immediately mark exactly those
IDs as processed.  Returns `(new_ids, updated store)`. -/
def process_batch (store : Finset ℕ) (batch : List ℕ) : Finset ℕ × Finset ℕ :=
  ((batch.filter (fun i => decide (i ∉ store))).toFinset,
   store ∪ (batch.filter (fun i => decide (i ∉ store))).toFinset)

/-- Model of `RedisProcessedIDChecker.filter_processed`: split the IDs into batches
of at most `batchSize` (the source slices `id_list[i:i+batch_size]`, which
agrees with `chunked`) and accumulate the new IDs of each batch, threading
the store through.  Returns `(all new ids, updated store)`. -/
def filter_processed (store : Finset ℕ) (ids : List ℕ) (batchSize : ℕ) : Finset ℕ × Finset ℕ :=
  (chunked ids batchSize).foldl
    (fun acc batch =>
      (acc.1 ∪ (process_batch acc.2 batch).1, (process_batch acc.2 batch).2))
    (∅, store)

/-- Model of `RedisProcessedIDChecker.mark_processed`: add all IDs to the set
(batched `SADD`s; the union is the same). -/
def mark_processed (store : Finset ℕ) (ids : List ℕ) : Finset ℕ :=
  store ∪ ids.toFinset

theorem process_batch_eq (store : Finset ℕ) (batch : List ℕ) :
    process_batch store batch = (batch.toFinset \ store, store ∪ batch.toFinset) := by
  unfold process_batch
  have h : (batch.filter (fun i => decide (i ∉ store))).toFinset = batch.toFinset \ store := by
    ext x; simp [List.mem_filter]
  rw [h, Finset.union_sdiff_self_eq_union]

theorem filter_processed_foldl (L : List (List ℕ)) :
    ∀ (store acc : Finset ℕ),
      L.foldl
        (fun acc batch =>
          (acc.1 ∪ (process_batch acc.2 batch).1, (process_batch acc.2 batch).2))
        (acc, store)
      = (acc ∪ (L.flatten.toFinset \ store), store ∪ L.flatten.toFinset) := by
  induction L with
  | nil => intro store acc; simp
  | cons b L ih =>
    intro store acc
    rw [List.foldl_cons]
    have hstep :
        (((acc, store).1 ∪ (process_batch (acc, store).2 b).1 : Finset ℕ),
          (process_batch (acc, store).2 b).2)
        = (acc ∪ (b.toFinset \ store), store ∪ b.toFinset) := by
      rw [process_batch_eq]
    rw [hstep, ih]
    have h1 : acc ∪ b.toFinset \ store ∪ L.flatten.toFinset \ (store ∪ b.toFinset)
        = acc ∪ ((b :: L).flatten.toFinset \ store) := by
      ext x
      simp only [Finset.mem_union, Finset.mem_sdiff, List.mem_toFinset, List.flatten_cons,
        List.mem_append]
      tauto
    have h2 : store ∪ b.toFinset ∪ L.flatten.toFinset = store ∪ (b :: L).flatten.toFinset := by
      ext x
      simp only [Finset.mem_union, List.mem_toFinset, List.flatten_cons, List.mem_append]
      tauto
    rw [h1, h2]

/-- Correctness of `filter_processed`: it returns exactly the IDs not in the store, and marks
every ID of the input as processed — in the same logical step. -/
theorem filter_processed_eq (store : Finset ℕ) (ids : List ℕ) (batchSize : ℕ)
    (hb : 0 < batchSize) :
    filter_processed store ids batchSize =
      (ids.toFinset \ store, store ∪ ids.toFinset) := by
  unfold filter_processed
  rw [filter_processed_foldl, chunked_flatten ids batchSize hb]
  simp

/-! ### `common/messaging/types.py`, `infrastructure/queues.py` -/

/-- Model of `PublishResult` from `common/messaging/types.py`.  The wall-clock
`duration_s` field is real time and is not modelled; all other fields are
kept. -/
structure PublishResult where
  queue : String
  initial_ids : ℕ
  already_processed : ℕ
  ids_to_publish : ℕ
  ids_published : ℕ
  batches_created : ℕ
  batches_failed : ℕ
deriving DecidableEq

/-- Value of `QUEUES.PROCESS_MATCH_BATCH.value` from `infrastructure/queues.py`:
`StrAutoEnum` makes the value the lowercase member name. -/
def PROCESS_MATCH_BATCH : String := "process_match_batch"

/-! ### `common/messaging/batching.py` -/

/-- Resolution of the broker interactions of one scheduling call.
`normal pubOk` fixes, for every 0-based batch index `i`, whether the
shielded `reliable_publisher.publish` for that batch ultimately succeeds
(`pubOk i = true`) or raises (any exception, caught by `_publish_single`);
`cancelled` models `asyncio.CancelledError` escaping the publish step;
`internalError` models any other unexpected exception inside the `try`
block of `schedule_matches_for_processing`. -/
inductive SendOutcome where
  | normal (pubOk : ℕ → Bool)
  | cancelled
  | internalError

/-- The three counters produced by `_send_match_batches`. -/
structure SendStats where
  ids_published : ℕ
  batches_created : ℕ
  batches_failed : ℕ
deriving DecidableEq

/-- Model of `_send_match_batches` from `common/messaging/batching.py`: slice the
IDs into batches of `batchSize` and publish them concurrently.
`sent_count` accumulates `len(batch)` for every batch whose
`_publish_single` succeeds, `failed_count` counts the batches whose
publish raised (the exception is swallowed there); the semaphore and the
task group only order the increments and do not change the totals. -/
def send_match_batches (match_ids : List ℕ) (batchSize : ℕ) (pubOk : ℕ → Bool) : SendStats :=
  if match_ids.isEmpty then ⟨0, 0, 0⟩
  else
    { ids_published :=
        ((chunked match_ids batchSize).enum.map
          (fun p => if pubOk p.1 then p.2.length else 0)).sum
      batches_created := (chunked match_ids batchSize).length
      batches_failed :=
        ((chunked match_ids batchSize).enum.filter (fun p => !(pubOk p.1))).length }

/-- The filter step of `schedule_matches_for_processing` (lines 133-142):
compute `(ids_to_publish, updated store, already_processed)`.  With
`force` the checker is skipped entirely; otherwise `filter_processed`
both selects and marks the new IDs.  Python iterates the resulting set in
unspecified order; this is modelled by filtering the deduplicated input
list down to the members of the new-ID set. -/
def schedule_filter (store : Finset ℕ) (unique_ids : List ℕ) (force : Bool) (fbs : ℕ) :
    List ℕ × Finset ℕ × ℕ :=
  if force then (unique_ids, store, 0)
  else
    (unique_ids.filter (fun i => decide (i ∈ (filter_processed store unique_ids fbs).1)),
     (filter_processed store unique_ids fbs).2,
     unique_ids.length - (filter_processed store unique_ids fbs).1.card)

/-- The publish phase of `schedule_matches_for_processing` (lines 144-186):
the early zero-result exit, the `try` around `_send_match_batches`, the
re-raise of `asyncio.CancelledError` (`Except.error ()`), and the
catch-all branch that degrades an unexpected internal error to a result
with `ids_published = 0` and `batches_failed = ceil(N/B)`. -/
def schedule_publish_phase (ids_to_publish : List ℕ) (already initial bs : ℕ)
    (oc : SendOutcome) : Except Unit PublishResult :=
  if ids_to_publish.isEmpty then
    .ok { queue := PROCESS_MATCH_BATCH, initial_ids := initial,
          already_processed := already, ids_to_publish := 0, ids_published := 0,
          batches_created := 0, batches_failed := 0 }
  else
    match oc with
    | .cancelled => .error ()
    | .internalError =>
        .ok { queue := PROCESS_MATCH_BATCH, initial_ids := initial,
              already_processed := already, ids_to_publish := ids_to_publish.length,
              ids_published := 0, batches_created := 0,
              batches_failed := (chunked ids_to_publish bs).length }
    | .normal pubOk =>
        .ok { queue := PROCESS_MATCH_BATCH, initial_ids := initial,
              already_processed := already, ids_to_publish := ids_to_publish.length,
              ids_published := (send_match_batches ids_to_publish bs pubOk).ids_published,
              batches_created := (send_match_batches ids_to_publish bs pubOk).batches_created,
              batches_failed := (send_match_batches ids_to_publish bs pubOk).batches_failed }

/-- Model of `schedule_matches_for_processing(match_ids, force=force)` from
`common/messaging/batching.py`.  `store` is the Redis set at key
`processed:match_ids`, threaded through explicitly; `bs` is `BATCH_SIZE`
(default 100), `fbs` the checker's batch size (default 1000); `oc`
resolves the broker interactions.  Python's `set(match_ids)` is modelled
by `match_ids.dedup`. -/
def schedule_matches_for_processing (store : Finset ℕ) (match_ids : List ℕ) (force : Bool)
    (bs fbs : ℕ) (oc : SendOutcome) : Except Unit PublishResult × Finset ℕ :=
  (schedule_publish_phase (schedule_filter store match_ids.dedup force fbs).1
      (schedule_filter store match_ids.dedup force fbs).2.2
      match_ids.length bs oc,
   (schedule_filter store match_ids.dedup force fbs).2.1)

/-- After a non-forced scheduling call every unique input ID is recorded
in the store, whether or not any batch publish succeeded. -/
theorem schedule_matches_store_after (store : Finset ℕ) (match_ids : List ℕ)
    (bs fbs : ℕ) (hf : 0 < fbs) (oc : SendOutcome) :
    (schedule_matches_for_processing store match_ids false bs fbs oc).2
      = store ∪ match_ids.toFinset := by
  have hd : match_ids.dedup.toFinset = match_ids.toFinset := by
    ext x; simp [List.mem_dedup]
  simp [schedule_matches_for_processing, schedule_filter,
    filter_processed_eq store match_ids.dedup fbs hf, hd]

theorem schedule_filter_nil_after (store : Finset ℕ) (match_ids : List ℕ)
    (fbs : ℕ) (hf : 0 < fbs) :
    (schedule_filter (store ∪ match_ids.toFinset) match_ids.dedup false fbs).1 = [] := by
  simp only [schedule_filter, Bool.false_eq_true, reduceIte]
  rw [filter_processed_eq _ _ _ hf]
  refine List.filter_eq_nil_iff.mpr ?_
  intro a ha
  have ham : a ∈ match_ids := List.mem_dedup.mp ha
  simp [List.mem_toFinset, ham]

/-- C1 (dedup idempotence): scheduling a non-empty ID list twice with
`force = False` and no store change in between yields a second
`PublishResult` with `ids_to_publish = 0` (hence no batches and nothing
published), because `filter_processed` marks every ID it returns as
recorded in the same logical step — whatever the broker outcomes of either
call were. -/
theorem dedup_idempotence (store : Finset ℕ) (match_ids : List ℕ) (hne : match_ids ≠ [])
    (bs fbs : ℕ) (hf : 0 < fbs) (oc1 oc2 : SendOutcome) :
    ∃ pr : PublishResult,
      (schedule_matches_for_processing
        (schedule_matches_for_processing store match_ids false bs fbs oc1).2
        match_ids false bs fbs oc2).1 = .ok pr
      ∧ pr.ids_to_publish = 0 ∧ pr.batches_created = 0 ∧ pr.ids_published = 0 := by
  rw [schedule_matches_store_after store match_ids bs fbs hf oc1]
  simp only [schedule_matches_for_processing]
  rw [schedule_filter_nil_after store match_ids fbs hf]
  exact ⟨_, rfl, rfl, rfl, rfl⟩

/-- Witness for C1: a concrete double scheduling of `[1, 2, 3]` against an
initially empty store. -/
theorem dedup_idempotence_witness :
    ([1, 2, 3] : List ℕ) ≠ [] ∧ 0 < 1000 ∧
    (∃ pr : PublishResult,
      (schedule_matches_for_processing
        (schedule_matches_for_processing ∅ [1, 2, 3] false 2 1000
          (.normal fun _ => true)).2
        [1, 2, 3] false 2 1000 (.normal fun _ => true)).1 = .ok pr
      ∧ pr.ids_to_publish = 0 ∧ pr.batches_created = 0 ∧ pr.ids_published = 0) :=
  ⟨by decide, by decide,
    dedup_idempotence ∅ [1, 2, 3] (by decide) 2 1000 (by decide)
      (.normal fun _ => true) (.normal fun _ => true)⟩

/-- C5 (batch slicing): for a non-empty duplicate-free list of new IDs
and a positive batch size, the sender creates exactly `⌈N / B⌉` batch
payloads, the batch ID lists are pairwise disjoint, their concatenation is
exactly the new-ID list, and every ID occurs in exactly one batch. -/
theorem batch_slicing (new_ids : List ℕ) (hnd : new_ids.Nodup) (hne : new_ids ≠ [])
    (B : ℕ) (hB : 0 < B) (pubOk : ℕ → Bool) :
    (send_match_batches new_ids B pubOk).batches_created = (new_ids.length + B - 1) / B
    ∧ (chunked new_ids B).flatten = new_ids
    ∧ (chunked new_ids B).Pairwise List.Disjoint
    ∧ ∀ i ∈ new_ids, ∃! b, b ∈ chunked new_ids B ∧ i ∈ b := by
  have hflat := chunked_flatten new_ids B hB
  have hdis := chunked_pairwise_disjoint new_ids B hB hnd
  refine ⟨?_, hflat, hdis, ?_⟩
  · have : new_ids.isEmpty = false := by
      cases new_ids with
      | nil => exact absurd rfl hne
      | cons a l => rfl
    simp [send_match_batches, this, chunked_length new_ids B hB]
  · intro i hi
    have hi' : i ∈ (chunked new_ids B).flatten := hflat.symm ▸ hi
    obtain ⟨b, hb, hib⟩ := List.mem_flatten.mp hi'
    refine ⟨b, ⟨hb, hib⟩, ?_⟩
    intro b' hb'
    by_contra hne'
    have hsym : Symmetric (List.Disjoint (α := ℕ)) := fun x y h => List.Disjoint.symm h
    have hdisj : b'.Disjoint b := hdis.forall hsym hb'.1 hb hne'
    exact hdisj hb'.2 hib

/-- Witness for C5: slicing the four IDs of the spec's end-to-end scenario
with batch size 2. -/
theorem batch_slicing_witness :
    ([10, 11, 12, 13] : List ℕ).Nodup ∧ ([10, 11, 12, 13] : List ℕ) ≠ [] ∧ 0 < 2 ∧
    ((send_match_batches [10, 11, 12, 13] 2 (fun _ => true)).batches_created
        = (([10, 11, 12, 13] : List ℕ).length + 2 - 1) / 2
      ∧ (chunked ([10, 11, 12, 13] : List ℕ) 2).flatten = [10, 11, 12, 13]
      ∧ (chunked ([10, 11, 12, 13] : List ℕ) 2).Pairwise List.Disjoint
      ∧ ∀ i ∈ ([10, 11, 12, 13] : List ℕ), ∃! b, b ∈ chunked ([10, 11, 12, 13] : List ℕ) 2 ∧ i ∈ b) :=
  ⟨by decide, by decide, by decide,
    batch_slicing [10, 11, 12, 13] (by decide) (by decide) 2 (by decide) (fun _ => true)⟩

/-! Helper lemmas for the publish phase. -/

theorem publish_phase_error_iff (L : List ℕ) (a i bs : ℕ) (oc : SendOutcome) :
    (schedule_publish_phase L a i bs oc = .error () ↔ oc = .cancelled ∧ L ≠ []) := by
  unfold schedule_publish_phase
  by_cases hL : L = []
  · subst hL; simp
  · have hLe : L.isEmpty = false := by
      cases L with
      | nil => exact absurd rfl hL
      | cons x xs => rfl
    simp only [hLe, Bool.false_eq_true, reduceIte]
    cases oc <;> simp [hL]

theorem publish_phase_normal_fields (L : List ℕ) (a i bs : ℕ) (pubOk : ℕ → Bool) :
    ∃ pr, schedule_publish_phase L a i bs (.normal pubOk) = .ok pr
      ∧ pr.ids_to_publish = L.length
      ∧ pr.batches_created = (chunked L bs).length
      ∧ pr.batches_failed = ((chunked L bs).enum.filter (fun p => !(pubOk p.1))).length
      ∧ pr.ids_published
          = ((chunked L bs).enum.map (fun p => if pubOk p.1 then p.2.length else 0)).sum := by
  unfold schedule_publish_phase send_match_batches
  by_cases hL : L = []
  · subst hL; exact ⟨_, rfl, rfl, rfl, rfl, rfl⟩
  · have hLe : L.isEmpty = false := by
      cases L with
      | nil => exact absurd rfl hL
      | cons x xs => rfl
    simp only [hLe, Bool.false_eq_true, reduceIte]
    exact ⟨_, rfl, rfl, rfl, rfl, rfl⟩

theorem publish_phase_internal_fields (L : List ℕ) (a i bs : ℕ) (hL : L ≠ []) :
    ∃ pr, schedule_publish_phase L a i bs .internalError = .ok pr
      ∧ pr.ids_published = 0
      ∧ pr.batches_failed = (chunked L bs).length := by
  unfold schedule_publish_phase
  have hLe : L.isEmpty = false := by
    cases L with
    | nil => exact absurd rfl hL
    | cons x xs => rfl
  simp only [hLe, Bool.false_eq_true, reduceIte]
  exact ⟨_, rfl, rfl, rfl⟩

theorem enum_snd_length_sum (L : List ℕ) (bs : ℕ) (hbs : 0 < bs) :
    ((chunked L bs).enum.map (fun p => p.2.length)).sum = L.length := by
  have h1 : ((chunked L bs).enum.map (fun p => p.2.length))
      = ((chunked L bs).enum.map Prod.snd).map List.length := by
    rw [List.map_map]; rfl
  rw [h1, List.enum_map_snd, ← List.length_flatten, chunked_flatten L bs hbs]

theorem published_plus_failed (L : List ℕ) (bs : ℕ) (hbs : 0 < bs) (pubOk : ℕ → Bool) :
    ((chunked L bs).enum.map (fun p => if pubOk p.1 then p.2.length else 0)).sum
      + ((chunked L bs).enum.map (fun p => if pubOk p.1 then 0 else p.2.length)).sum
      = L.length := by
  have key : ∀ E : List (ℕ × List ℕ),
      (E.map (fun p => if pubOk p.1 then p.2.length else 0)).sum
        + (E.map (fun p => if pubOk p.1 then 0 else p.2.length)).sum
      = (E.map (fun p => p.2.length)).sum := by
    intro E
    induction E with
    | nil => rfl
    | cons e E ih =>
      cases h : pubOk e.1 <;> simp only [List.map_cons, List.sum_cons, h] <;>
        simp only [if_true, if_false, Bool.false_eq_true, reduceIte] <;> omega
  rw [key, enum_snd_length_sum L bs hbs]

/-- C4 (scheduling never raises for batch publish failure): a
scheduling call returns `Except.error` only when the publish step is
cancelled (and there was something to publish); with per-batch publish
outcomes it returns a `PublishResult` in which every failed batch adds one
to `batches_failed` and contributes 0 to `ids_published` while the other
batches contribute their full ID count (`ids_published` plus the sizes of
the failed batches is exactly `ids_to_publish`); and on an unexpected
internal error it returns a result with `ids_published = 0` and
`batches_failed` equal to the number of batches. -/
theorem schedule_no_escape (store : Finset ℕ) (match_ids : List ℕ) (force : Bool)
    (bs fbs : ℕ) (hbs : 0 < bs) (pubOk : ℕ → Bool) (oc : SendOutcome) :
    ((schedule_matches_for_processing store match_ids force bs fbs oc).1 = .error ()
      ↔ oc = .cancelled ∧ (schedule_filter store match_ids.dedup force fbs).1 ≠ [])
    ∧ (∃ pr, (schedule_matches_for_processing store match_ids force bs fbs
          (.normal pubOk)).1 = .ok pr
        ∧ pr.ids_to_publish = (schedule_filter store match_ids.dedup force fbs).1.length
        ∧ pr.batches_created
            = (chunked (schedule_filter store match_ids.dedup force fbs).1 bs).length
        ∧ pr.batches_failed
            = ((chunked (schedule_filter store match_ids.dedup force fbs).1 bs).enum.filter
                (fun p => !(pubOk p.1))).length
        ∧ pr.ids_published
            + ((chunked (schedule_filter store match_ids.dedup force fbs).1 bs).enum.map
                (fun p => if pubOk p.1 then 0 else p.2.length)).sum
            = pr.ids_to_publish)
    ∧ ((schedule_filter store match_ids.dedup force fbs).1 ≠ [] →
        ∃ pr, (schedule_matches_for_processing store match_ids force bs fbs
            .internalError).1 = .ok pr
          ∧ pr.ids_published = 0
          ∧ pr.batches_failed
              = (chunked (schedule_filter store match_ids.dedup force fbs).1 bs).length) := by
  refine ⟨publish_phase_error_iff _ _ _ _ oc, ?_, ?_⟩
  · obtain ⟨pr, h1, h2, h3, h4, h5⟩ :=
      publish_phase_normal_fields (schedule_filter store match_ids.dedup force fbs).1
        (schedule_filter store match_ids.dedup force fbs).2.2 match_ids.length bs pubOk
    refine ⟨pr, h1, h2, h3, h4, ?_⟩
    rw [h5, h2, published_plus_failed _ bs hbs pubOk]
  · intro hne
    exact publish_phase_internal_fields (schedule_filter store match_ids.dedup force fbs).1
      (schedule_filter store match_ids.dedup force fbs).2.2 match_ids.length bs hne

/-- Witness for C4: a concrete scheduling call of `[1, 2, 3]` with batch
size 2 in which only batch 0 publishes successfully. -/
theorem schedule_no_escape_witness :
    0 < 2 ∧
    (((schedule_matches_for_processing ∅ [1, 2, 3] false 2 1000 .cancelled).1 = .error ()
      ↔ SendOutcome.cancelled = .cancelled
        ∧ (schedule_filter ∅ ([1, 2, 3] : List ℕ).dedup false 1000).1 ≠ [])
    ∧ (∃ pr, (schedule_matches_for_processing ∅ [1, 2, 3] false 2 1000
          (.normal fun i => i == 0)).1 = .ok pr
        ∧ pr.ids_to_publish = (schedule_filter ∅ ([1, 2, 3] : List ℕ).dedup false 1000).1.length
        ∧ pr.batches_created
            = (chunked (schedule_filter ∅ ([1, 2, 3] : List ℕ).dedup false 1000).1 2).length
        ∧ pr.batches_failed
            = ((chunked (schedule_filter ∅ ([1, 2, 3] : List ℕ).dedup false 1000).1 2).enum.filter
                (fun p => !(p.1 == 0))).length
        ∧ pr.ids_published
            + ((chunked (schedule_filter ∅ ([1, 2, 3] : List ℕ).dedup false 1000).1 2).enum.map
                (fun p => if p.1 == 0 then 0 else p.2.length)).sum
            = pr.ids_to_publish)
    ∧ ((schedule_filter ∅ ([1, 2, 3] : List ℕ).dedup false 1000).1 ≠ [] →
        ∃ pr, (schedule_matches_for_processing ∅ [1, 2, 3] false 2 1000
            .internalError).1 = .ok pr
          ∧ pr.ids_published = 0
          ∧ pr.batches_failed
              = (chunked (schedule_filter ∅ ([1, 2, 3] : List ℕ).dedup false 1000).1 2).length)) :=
  ⟨by decide,
    schedule_no_escape ∅ [1, 2, 3] false 2 1000 (by decide) (fun i => i == 0) .cancelled⟩

/-! ### `common/messaging/reliable.py` : `ReliableBrokerPublisher` -/

/-- Model of `RetryConfig` from `common/messaging/reliable.py`; delays in seconds,
modelled as rationals (defaults `3`, `0.5`, `2.0`, `10.0`). -/
structure RetryConfig where
  max_retries : ℕ := 3
  initial_delay_s : ℚ := 1 / 2
  backoff_factor : ℚ := 2
  max_backoff_s : ℚ := 10

/-- Outcome of one raw `broker.publish` attempt: success, an
`asyncio.CancelledError`, or any other exception. -/
inductive AttemptOutcome where
  | ok
  | cancelled
  | err
deriving DecidableEq

/-- Result of `ReliableBrokerPublisher.publish`: `success k` = returned
after attempt `k` (0-based) succeeded; `cancelledAt k` = cancellation
propagated from attempt `k`; `exhausted k` = `BrokerPublishError` raised,
chained (`raise ... from last_exc`) to the exception of the last attempt
`k`.  `BrokerPublishError` is the typed error; the constructor identity
distinguishes it from a swallowed success. -/
inductive PublishOutcome where
  | success (attempt : ℕ)
  | cancelledAt (attempt : ℕ)
  | exhausted (lastCause : ℕ)
deriving DecidableEq

/-- Trace of one `publish` call: the final outcome, the number of raw
attempts executed, and for every executed backoff sleep the pair
`(pre-jitter delay, sampled sleep)`. -/
structure PublishTrace where
  result : PublishOutcome
  attemptsMade : ℕ
  retrySleeps : List (ℚ × ℚ)
deriving DecidableEq

/-- The `for attempt in range(max_retries + 1)` loop of
`ReliableBrokerPublisher.publish`.  `att n` is the outcome of raw attempt
`n`; `u n` drives `random.uniform(0.0, delay)` (`_random_delay`) as
`sleep = u n * delay` with `u n ∈ [0, 1]`; `remaining` counts the loop
iterations left, `attempt` is the current index and `delay` the current
pre-jitter delay (updated to `min(delay * backoff_factor, max_backoff_s)`
after each sleep). -/
def publishLoop (cfg : RetryConfig) (att : ℕ → AttemptOutcome) (u : ℕ → ℚ) :
    ℕ → ℕ → ℚ → PublishTrace
  | 0, attempt, _ => ⟨.exhausted (attempt - 1), 0, []⟩
  | r + 1, attempt, delay =>
    match att attempt with
    | .ok => ⟨.success attempt, 1, []⟩
    | .cancelled => ⟨.cancelledAt attempt, 1, []⟩
    | .err =>
      if cfg.max_retries ≤ attempt then ⟨.exhausted attempt, 1, []⟩
      else
        let rest := publishLoop cfg att u r (attempt + 1)
          (min (delay * cfg.backoff_factor) cfg.max_backoff_s)
        ⟨rest.result, rest.attemptsMade + 1, (delay, u attempt * delay) :: rest.retrySleeps⟩

/-- Model of `ReliableBrokerPublisher.publish`: run the loop from attempt 0 with
the configured initial delay. -/
def reliable_publish (cfg : RetryConfig) (att : ℕ → AttemptOutcome) (u : ℕ → ℚ) : PublishTrace :=
  publishLoop cfg att u (cfg.max_retries + 1) 0 cfg.initial_delay_s

/-- The pre-jitter delay sequence: `delay` starts at `d` and is updated
`delay = min(delay * backoff_factor, max_backoff_s)` once per retry. -/
def dIter (cfg : RetryConfig) : ℚ → ℕ → ℚ
  | d, 0 => d
  | d, k + 1 => dIter cfg (min (d * cfg.backoff_factor) cfg.max_backoff_s) k

theorem dIter_closed (cfg : RetryConfig) (hf : 1 ≤ cfg.backoff_factor) :
    ∀ (k : ℕ) (d : ℚ), 0 ≤ d → d ≤ cfg.max_backoff_s →
      dIter cfg d k = min (d * cfg.backoff_factor ^ k) cfg.max_backoff_s := by
  intro k
  induction k with
  | zero =>
    intro d _ hdm
    simp [dIter, min_eq_left, hdm]
  | succ k ih =>
    intro d hd0 hdm
    have hM0 : (0 : ℚ) ≤ cfg.max_backoff_s := le_trans hd0 hdm
    have hdf0 : 0 ≤ d * cfg.backoff_factor :=
      mul_nonneg hd0 (le_trans zero_le_one hf)
    have h1 : dIter cfg d (k + 1)
        = dIter cfg (min (d * cfg.backoff_factor) cfg.max_backoff_s) k := rfl
    rw [h1, ih _ (le_min hdf0 hM0) (min_le_right _ _)]
    have hpow : (1 : ℚ) ≤ cfg.backoff_factor ^ k := one_le_pow₀ hf
    rcases le_total (d * cfg.backoff_factor) cfg.max_backoff_s with hc | hc
    · rw [min_eq_left hc, mul_assoc, ← pow_succ']
    · rw [min_eq_right hc]
      have hMk : cfg.max_backoff_s ≤ cfg.max_backoff_s * cfg.backoff_factor ^ k :=
        le_mul_of_one_le_right hM0 hpow
      have hdk : cfg.max_backoff_s ≤ d * cfg.backoff_factor ^ (k + 1) := by
        calc cfg.max_backoff_s ≤ cfg.max_backoff_s * cfg.backoff_factor ^ k := hMk
        _ ≤ d * cfg.backoff_factor * cfg.backoff_factor ^ k := by
            exact mul_le_mul_of_nonneg_right hc (le_trans zero_le_one hpow)
        _ = d * cfg.backoff_factor ^ (k + 1) := by rw [mul_assoc, ← pow_succ']
      rw [min_eq_right hMk, min_eq_right hdk]

theorem dIter_nonneg (cfg : RetryConfig) (hf : 1 ≤ cfg.backoff_factor)
    (hM0 : 0 ≤ cfg.max_backoff_s) :
    ∀ (k : ℕ) (d : ℚ), 0 ≤ d → 0 ≤ dIter cfg d k := by
  intro k
  induction k with
  | zero => intro d hd; exact hd
  | succ k ih =>
    intro d hd
    exact ih _ (le_min (mul_nonneg hd (le_trans zero_le_one hf)) hM0)

theorem publishLoop_sleeps (cfg : RetryConfig) (att : ℕ → AttemptOutcome) (u : ℕ → ℚ) :
    ∀ (r a : ℕ) (d : ℚ) (k : ℕ) (p : ℚ × ℚ),
      (publishLoop cfg att u r a d).retrySleeps[k]? = some p →
      p = (dIter cfg d k, u (a + k) * dIter cfg d k) := by
  intro r
  induction r with
  | zero => intro a d k p hp; simp [publishLoop] at hp
  | succ r ih =>
    intro a d k p hp
    unfold publishLoop at hp
    cases h : att a <;> rw [h] at hp
    · simp at hp
    · simp at hp
    · by_cases hm : cfg.max_retries ≤ a
      · rw [if_pos hm] at hp; simp at hp
      · rw [if_neg hm] at hp
        simp only at hp
        cases k with
        | zero =>
          simp only [List.getElem?_cons_zero, Option.some.injEq] at hp
          simp [← hp, dIter]
        | succ k =>
          simp only [List.getElem?_cons_succ] at hp
          have h2 := ih (a + 1) (min (d * cfg.backoff_factor) cfg.max_backoff_s) k p hp
          rw [h2]
          have ha : a + 1 + k = a + (k + 1) := by omega
          rw [ha]
          rfl

/-- C7 (backoff bounds with full jitter): in
`ReliableBrokerPublisher.publish`, the pre-jitter delay used for retry
`k` (0-indexed) equals `min(initial_delay * backoff_factor^k, max_delay)`
and never exceeds `max_backoff_s`, and the sampled sleep lies in
`[0, pre-jitter delay]`, for any configuration with `backoff_factor ≥ 1`
and `0 ≤ initial_delay_s ≤ max_backoff_s` (the source defaults satisfy
this) and any uniform samples `u n ∈ [0, 1]`. -/
theorem backoff_bounds (cfg : RetryConfig) (hf : 1 ≤ cfg.backoff_factor)
    (h0 : 0 ≤ cfg.initial_delay_s) (hm : cfg.initial_delay_s ≤ cfg.max_backoff_s)
    (att : ℕ → AttemptOutcome) (u : ℕ → ℚ) (hu : ∀ n, 0 ≤ u n ∧ u n ≤ 1)
    (k : ℕ) (p : ℚ × ℚ) (hp : (reliable_publish cfg att u).retrySleeps[k]? = some p) :
    p.1 = min (cfg.initial_delay_s * cfg.backoff_factor ^ k) cfg.max_backoff_s
    ∧ p.1 ≤ cfg.max_backoff_s
    ∧ 0 ≤ p.2 ∧ p.2 ≤ p.1 := by
  have hM0 : (0 : ℚ) ≤ cfg.max_backoff_s := le_trans h0 hm
  have hp2 := publishLoop_sleeps cfg att u (cfg.max_retries + 1) 0 cfg.initial_delay_s k p hp
  have hd := dIter_closed cfg hf k cfg.initial_delay_s h0 hm
  have hdn : 0 ≤ dIter cfg cfg.initial_delay_s k := dIter_nonneg cfg hf hM0 k _ h0
  subst hp2
  refine ⟨hd, ?_, ?_, ?_⟩
  · show dIter cfg cfg.initial_delay_s k ≤ cfg.max_backoff_s
    rw [hd]
    exact min_le_right _ _
  · exact mul_nonneg (hu (0 + k)).1 hdn
  · show u (0 + k) * dIter cfg cfg.initial_delay_s k ≤ dIter cfg cfg.initial_delay_s k
    have h4 := mul_le_mul_of_nonneg_right (hu (0 + k)).2 hdn
    rwa [one_mul] at h4

/-- Witness for C7: retry 0 of a run with the default configuration,
all attempts failing, and uniform samples fixed at 1/2. -/
theorem backoff_bounds_witness :
    (1 : ℚ) ≤ ({} : RetryConfig).backoff_factor
    ∧ (0 : ℚ) ≤ ({} : RetryConfig).initial_delay_s
    ∧ ({} : RetryConfig).initial_delay_s ≤ ({} : RetryConfig).max_backoff_s
    ∧ (reliable_publish {} (fun _ => .err) (fun _ => (1 : ℚ) / 2)).retrySleeps[0]?
        = some ((1 : ℚ) / 2, (1 : ℚ) / 2 * ((1 : ℚ) / 2))
    ∧ (((1 : ℚ) / 2, (1 : ℚ) / 2 * ((1 : ℚ) / 2)).1
        = min (({} : RetryConfig).initial_delay_s * ({} : RetryConfig).backoff_factor ^ 0)
            ({} : RetryConfig).max_backoff_s
      ∧ ((1 : ℚ) / 2, (1 : ℚ) / 2 * ((1 : ℚ) / 2)).1 ≤ ({} : RetryConfig).max_backoff_s
      ∧ (0 : ℚ) ≤ ((1 : ℚ) / 2, (1 : ℚ) / 2 * ((1 : ℚ) / 2)).2
      ∧ ((1 : ℚ) / 2, (1 : ℚ) / 2 * ((1 : ℚ) / 2)).2
          ≤ ((1 : ℚ) / 2, (1 : ℚ) / 2 * ((1 : ℚ) / 2)).1) :=
  ⟨by norm_num, by norm_num, by norm_num, rfl,
    backoff_bounds {} (by norm_num) (by norm_num) (by norm_num) (fun _ => .err)
      (fun _ => (1 : ℚ) / 2) (fun n => by norm_num) 0
      ((1 : ℚ) / 2, (1 : ℚ) / 2 * ((1 : ℚ) / 2)) rfl⟩

theorem publishLoop_attempts_le (cfg : RetryConfig) (att : ℕ → AttemptOutcome) (u : ℕ → ℚ) :
    ∀ (r a : ℕ) (d : ℚ), (publishLoop cfg att u r a d).attemptsMade ≤ r := by
  intro r
  induction r with
  | zero => intro a d; simp [publishLoop]
  | succ r ih =>
    intro a d
    unfold publishLoop
    cases att a
    · simp
    · simp
    · by_cases hm : cfg.max_retries ≤ a
      · rw [if_pos hm]; simp
      · rw [if_neg hm]
        have h1 := ih (a + 1) (min (d * cfg.backoff_factor) cfg.max_backoff_s)
        show (publishLoop cfg att u r (a + 1)
          (min (d * cfg.backoff_factor) cfg.max_backoff_s)).attemptsMade + 1 ≤ r + 1
        omega

theorem publishLoop_exhausted (cfg : RetryConfig) (att : ℕ → AttemptOutcome) (u : ℕ → ℚ) :
    ∀ (r a : ℕ), a + r = cfg.max_retries + 1 → 0 < r →
      (∀ n, a ≤ n → n ≤ cfg.max_retries → att n = .err) →
      ∀ d, (publishLoop cfg att u r a d).result = .exhausted cfg.max_retries := by
  intro r
  induction r with
  | zero => intro a _ h0; exact absurd h0 (by omega)
  | succ r ih =>
    intro a ha _ herr d
    have he : att a = .err := herr a le_rfl (by omega)
    unfold publishLoop
    rw [he]
    by_cases hm : cfg.max_retries ≤ a
    · rw [if_pos hm]
      have : a = cfg.max_retries := by omega
      rw [this]
    · rw [if_neg hm]
      simp only []
      exact ih (a + 1) (by omega) (by omega) (fun n hn hn' => herr n (by omega) hn') _

theorem publishLoop_success (cfg : RetryConfig) (att : ℕ → AttemptOutcome) (u : ℕ → ℚ) :
    ∀ (r a : ℕ) (d : ℚ) (k : ℕ), a ≤ k → k ≤ cfg.max_retries →
      a + r = cfg.max_retries + 1 → att k = .ok →
      (∀ j, a ≤ j → j < k → att j = .err) →
      (publishLoop cfg att u r a d).result = .success k
      ∧ (publishLoop cfg att u r a d).attemptsMade = k - a + 1 := by
  intro r
  induction r with
  | zero => intro a d k hak hk ha; exact absurd ha (by omega)
  | succ r ih =>
    intro a d k hak hk ha hok hpr
    by_cases hae : a = k
    · subst hae
      unfold publishLoop
      rw [hok]
      refine ⟨rfl, ?_⟩
      show 1 = a - a + 1
      omega
    · have hlt : a < k := by omega
      have he : att a = .err := hpr a le_rfl hlt
      unfold publishLoop
      rw [he]
      have hm : ¬ cfg.max_retries ≤ a := by omega
      rw [if_neg hm]
      simp only []
      have hrec := ih (a + 1) (min (d * cfg.backoff_factor) cfg.max_backoff_s) k
        (by omega) hk (by omega) hok (fun j hj hj' => hpr j (by omega) hj')
      exact ⟨hrec.1, by rw [hrec.2]; omega⟩

/-- C6 (publisher retry budget and typed exhaustion error):
`ReliableBrokerPublisher.publish` executes at most `max_retries + 1` raw
attempts (default 3 retries, 4 total attempts); if every attempt raises a
non-cancellation exception it raises `BrokerPublishError` chained to the
last attempt's exception (`exhausted max_retries`); and it returns
normally as soon as one attempt succeeds, having made exactly that many
attempts. -/
theorem publish_retry_budget (cfg : RetryConfig) (att : ℕ → AttemptOutcome) (u : ℕ → ℚ) :
    (reliable_publish cfg att u).attemptsMade ≤ cfg.max_retries + 1
    ∧ ((∀ n, n ≤ cfg.max_retries → att n = .err) →
        (reliable_publish cfg att u).result = .exhausted cfg.max_retries)
    ∧ (∀ k, k ≤ cfg.max_retries → att k = .ok → (∀ j, j < k → att j = .err) →
        (reliable_publish cfg att u).result = .success k
        ∧ (reliable_publish cfg att u).attemptsMade = k + 1) := by
  refine ⟨publishLoop_attempts_le cfg att u _ 0 _, ?_, ?_⟩
  · intro herr
    exact publishLoop_exhausted cfg att u (cfg.max_retries + 1) 0 (by omega) (by omega)
      (fun n _ hn => herr n hn) _
  · intro k hk hok hpr
    have h := publishLoop_success cfg att u (cfg.max_retries + 1) 0 cfg.initial_delay_s k
      (by omega) hk (by omega) hok (fun j _ hj => hpr j hj)
    have h2 : (reliable_publish cfg att u).attemptsMade = k - 0 + 1 := h.2
    exact ⟨h.1, by rw [h2]; omega⟩

/-- Witness for C6: with the default configuration and every attempt
failing, the inner implication fires: 4 attempts, then exhaustion chained
to attempt 3. -/
theorem publish_retry_budget_witness :
    (reliable_publish {} (fun _ => .err) (fun _ => 0)).attemptsMade ≤ 3 + 1
    ∧ (reliable_publish {} (fun _ => .err) (fun _ => 0)).result = .exhausted 3 :=
  ⟨(publish_retry_budget {} (fun _ => .err) (fun _ => 0)).1,
    (publish_retry_budget {} (fun _ => .err) (fun _ => 0)).2.1 (fun _ _ => rfl)⟩

/-! ### `infrastructure/worker.py` : `CircuitBreaker`

Wall-clock time (`time.time()`) is an explicit rational parameter; the
`asyncio.Lock` serialises the mutations and is modelled by the steps being
atomic. -/

/-- The two values of `CircuitBreaker.state` (`"closed"` / `"open"`;
`open` is a Lean keyword, hence `opened`). -/
inductive CBPhase where
  | closed
  | opened
deriving DecidableEq

/-- Model of `CircuitBreaker.__init__`: defaults `threshold=5`, `recovery_s=60.0`,
`failures=0`, `last_failure=0.0`, `state="closed"`. -/
structure CircuitBreaker where
  threshold : ℕ := 5
  recovery : ℚ := 60
  failures : ℕ := 0
  last_failure : ℚ := 0
  state : CBPhase := .closed
deriving DecidableEq

/-- Model of `CircuitBreaker.is_open` at time `now`:
`state == "open" and (time.time() - last_failure) < recovery`. -/
def CircuitBreaker.is_open (cb : CircuitBreaker) (now : ℚ) : Bool :=
  cb.state == .opened && decide (now - cb.last_failure < cb.recovery)

/-- Model of `CircuitBreaker.__aexit__` with `exc_type is None`: reset
`consecutive_failures` and force the state closed. -/
def CircuitBreaker.exitSuccess (cb : CircuitBreaker) : CircuitBreaker :=
  { cb with failures := 0, state := .closed }

/-- Model of `CircuitBreaker.__aexit__` with an exception: increment the failure
count, record `last_failure = time.time()`, open once the threshold is
reached. -/
def CircuitBreaker.exitFailure (cb : CircuitBreaker) (now : ℚ) : CircuitBreaker :=
  { cb with
    failures := cb.failures + 1
    last_failure := now
    state := (if cb.threshold ≤ cb.failures + 1 then CBPhase.opened else cb.state) }

/-- Result of one guarded unit of work: `rejected` = `__aenter__` raised
the open-circuit `RuntimeError`, the wrapped work was never executed;
`completed` / `failed` = the work executed and returned / raised. -/
inductive GuardResult where
  | rejected
  | completed
  | failed
deriving DecidableEq

/-- One guarded unit of work `async with breaker: work()`: enter at
`tEnter` (fail fast if `is_open`), otherwise run the work (outcome
`workOk`) and exit at `tExit` with `__aexit__`'s bookkeeping. -/
def guardedStep (cb : CircuitBreaker) (tEnter tExit : ℚ) (workOk : Bool) :
    CircuitBreaker × GuardResult :=
  if cb.is_open tEnter then (cb, .rejected)
  else if workOk then (cb.exitSuccess, .completed)
  else (cb.exitFailure tExit, .failed)

/-- A sequence of guarded operations, each given by
`(enter time, exit time, work outcome)`. -/
def runGuarded (cb : CircuitBreaker) : List (ℚ × ℚ × Bool) → CircuitBreaker × List GuardResult
  | [] => (cb, [])
  | op :: ops =>
      ((runGuarded (guardedStep cb op.1 op.2.1 op.2.2).1 ops).1,
       (guardedStep cb op.1 op.2.1 op.2.2).2
         :: (runGuarded (guardedStep cb op.1 op.2.1 op.2.2).1 ops).2)

/-- A consecutive run of failing guarded operations on a closed breaker
within the threshold budget: every operation executes (and fails), the
failure count adds up, the breaker opens exactly when the threshold is
reached, and `last_failure` is the exit time of the last operation. -/
theorem runGuarded_failing (th : ℕ) :
    ∀ (ops : List (ℚ × ℚ)) (cb : CircuitBreaker),
      cb.threshold = th → cb.state = .closed → cb.failures + ops.length ≤ th →
      (runGuarded cb (ops.map fun p => (p.1, p.2, false))).2
          = List.replicate ops.length .failed
      ∧ (runGuarded cb (ops.map fun p => (p.1, p.2, false))).1.failures
          = cb.failures + ops.length
      ∧ (th ≤ cb.failures + ops.length → ops ≠ [] →
          (runGuarded cb (ops.map fun p => (p.1, p.2, false))).1.state = .opened)
      ∧ (cb.failures + ops.length < th →
          (runGuarded cb (ops.map fun p => (p.1, p.2, false))).1.state = .closed)
      ∧ (runGuarded cb (ops.map fun p => (p.1, p.2, false))).1.threshold = th
      ∧ (runGuarded cb (ops.map fun p => (p.1, p.2, false))).1.recovery = cb.recovery
      ∧ (∀ q, ops.getLast? = some q →
          (runGuarded cb (ops.map fun p => (p.1, p.2, false))).1.last_failure = q.2) := by
  intro ops
  induction ops with
  | nil =>
    intro cb hth hcl _
    refine ⟨rfl, rfl, ?_, fun _ => hcl, hth, rfl, ?_⟩
    · intro _ hne
      exact absurd rfl hne
    · intro q hq
      simp at hq
  | cons op ops ih =>
    intro cb hth hcl hle
    have hio : cb.is_open op.1 = false := by
      simp [CircuitBreaker.is_open, hcl]
    have hstep : guardedStep cb op.1 op.2 false = (cb.exitFailure op.2, .failed) := by
      simp [guardedStep, hio]
    have hrun : runGuarded cb ((op :: ops).map fun p => (p.1, p.2, false))
        = ((runGuarded (cb.exitFailure op.2) (ops.map fun p => (p.1, p.2, false))).1,
           GuardResult.failed
             :: (runGuarded (cb.exitFailure op.2) (ops.map fun p => (p.1, p.2, false))).2) := by
      simp only [List.map_cons, runGuarded]
      rw [show guardedStep cb ((op.1, op.2, false) : ℚ × ℚ × Bool).1
            ((op.1, op.2, false) : ℚ × ℚ × Bool).2.1
            ((op.1, op.2, false) : ℚ × ℚ × Bool).2.2
          = (cb.exitFailure op.2, .failed) from hstep]
    rw [hrun]
    cases ops with
    | nil =>
      simp only [List.map_nil, runGuarded, List.length_cons, List.length_nil]
      have hf1 : (cb.exitFailure op.2).failures = cb.failures + 1 := rfl
      refine ⟨rfl, hf1, ?_, ?_, hth, rfl, ?_⟩
      · intro hge _
        show (if cb.threshold ≤ cb.failures + 1 then CBPhase.opened else cb.state) = .opened
        rw [if_pos (by omega)]
      · intro hlt
        show (if cb.threshold ≤ cb.failures + 1 then CBPhase.opened else cb.state) = .closed
        rw [if_neg (by omega)]
        exact hcl
      · intro q hq
        simp only [List.getLast?_singleton, Option.some.injEq] at hq
        subst hq
        rfl
    | cons op2 rest =>
      have hlen : (op2 :: rest).length = rest.length + 1 := rfl
      have hcl1 : (cb.exitFailure op.2).state = .closed := by
        show (if cb.threshold ≤ cb.failures + 1 then CBPhase.opened else cb.state) = .closed
        rw [if_neg (by simp only [List.length_cons] at hle; omega)]
        exact hcl
      have hth1 : (cb.exitFailure op.2).threshold = th := hth
      have hle1 : (cb.exitFailure op.2).failures + (op2 :: rest).length ≤ th := by
        show cb.failures + 1 + (op2 :: rest).length ≤ th
        simp only [List.length_cons] at hle ⊢
        omega
      obtain ⟨h1, h2, h3, h4, h5, h6, h7⟩ := ih (cb.exitFailure op.2) hth1 hcl1 hle1
      refine ⟨?_, ?_, ?_, ?_, h5, h6, ?_⟩
      · rw [h1]
        simp [List.replicate_succ]
      · rw [h2]
        show cb.failures + 1 + (op2 :: rest).length = cb.failures + (op2 :: rest).length + 1
        omega
      · intro hge _
        refine h3 ?_ (by simp)
        show th ≤ cb.failures + 1 + (op2 :: rest).length
        simp only [List.length_cons] at hge ⊢
        omega
      · intro hlt
        refine h4 ?_
        show cb.failures + 1 + (op2 :: rest).length < th
        simp only [List.length_cons] at hlt ⊢
        omega
      · intro q hq
        rw [List.getLast?_cons_cons] at hq
        exact h7 q hq

/-- C3 (circuit breaker trip and recovery): from a fresh closed
breaker, `threshold` consecutive guarded failures all execute and leave
the breaker open; a guarded attempt made while less than `recovery_s` has
elapsed since the last failure is rejected (open-circuit `RuntimeError`)
without executing the wrapped work and without changing the breaker; an
attempt made once `recovery_s` has elapsed executes the wrapped work
normally; and any guarded operation that completes without exception
resets `consecutive_failures` to 0 and forces the state closed. -/
theorem circuit_breaker_trip_recover (cb : CircuitBreaker)
    (hth : 0 < cb.threshold) (hcl : cb.state = .closed) (hf0 : cb.failures = 0)
    (ops : List (ℚ × ℚ)) (hlen : ops.length = cb.threshold) :
    (runGuarded cb (ops.map fun p => (p.1, p.2, false))).2
        = List.replicate cb.threshold .failed
    ∧ (runGuarded cb (ops.map fun p => (p.1, p.2, false))).1.state = .opened
    ∧ (∀ t t' w,
        t - (runGuarded cb (ops.map fun p => (p.1, p.2, false))).1.last_failure
            < cb.recovery →
        guardedStep (runGuarded cb (ops.map fun p => (p.1, p.2, false))).1 t t' w
          = ((runGuarded cb (ops.map fun p => (p.1, p.2, false))).1, .rejected))
    ∧ (∀ t t' w,
        cb.recovery
            ≤ t - (runGuarded cb (ops.map fun p => (p.1, p.2, false))).1.last_failure →
        (guardedStep (runGuarded cb (ops.map fun p => (p.1, p.2, false))).1 t t' w).2
          = (if w then GuardResult.completed else .failed))
    ∧ (∀ cb' t t', cb'.is_open t = false →
        guardedStep cb' t t' true = (cb'.exitSuccess, .completed)
        ∧ cb'.exitSuccess.failures = 0 ∧ cb'.exitSuccess.state = .closed) := by
  obtain ⟨h1, h2, h3, h4, h5, h6, h7⟩ :=
    runGuarded_failing cb.threshold ops cb rfl hcl (by omega)
  have hne : ops ≠ [] := by
    intro h
    rw [h] at hlen
    simp only [List.length_nil] at hlen
    omega
  have hopen : (runGuarded cb (ops.map fun p => (p.1, p.2, false))).1.state = .opened :=
    h3 (by omega) hne
  refine ⟨by rw [h1, hlen], hopen, ?_, ?_, ?_⟩
  · intro t t' w hwin
    have hio : (runGuarded cb (ops.map fun p => (p.1, p.2, false))).1.is_open t = true := by
      unfold CircuitBreaker.is_open
      rw [hopen, h6]
      simp [hwin]
    simp [guardedStep, hio]
  · intro t t' w hel
    have hio : (runGuarded cb (ops.map fun p => (p.1, p.2, false))).1.is_open t = false := by
      unfold CircuitBreaker.is_open
      rw [hopen, h6]
      simp [not_lt.mpr hel]
    cases w <;> simp [guardedStep, hio]
  · intro cb' t t' hio
    exact ⟨by simp [guardedStep, hio], rfl, rfl⟩

/-- Witness for C3: the default breaker (threshold 5, recovery 60) and
five failing guarded operations at times 1..5. -/
theorem circuit_breaker_trip_recover_witness :
    0 < ({} : CircuitBreaker).threshold
    ∧ ({} : CircuitBreaker).state = .closed
    ∧ ({} : CircuitBreaker).failures = 0
    ∧ ([(1, 1), (2, 2), (3, 3), (4, 4), (5, 5)] : List (ℚ × ℚ)).length
        = ({} : CircuitBreaker).threshold
    ∧ ((runGuarded {} (([(1, 1), (2, 2), (3, 3), (4, 4), (5, 5)] : List (ℚ × ℚ)).map
          fun p => (p.1, p.2, false))).2
        = List.replicate ({} : CircuitBreaker).threshold .failed
      ∧ (runGuarded {} (([(1, 1), (2, 2), (3, 3), (4, 4), (5, 5)] : List (ℚ × ℚ)).map
          fun p => (p.1, p.2, false))).1.state = .opened
      ∧ (∀ t t' w,
          t - (runGuarded {} (([(1, 1), (2, 2), (3, 3), (4, 4), (5, 5)] : List (ℚ × ℚ)).map
              fun p => (p.1, p.2, false))).1.last_failure
              < ({} : CircuitBreaker).recovery →
          guardedStep (runGuarded {} (([(1, 1), (2, 2), (3, 3), (4, 4), (5, 5)] :
              List (ℚ × ℚ)).map fun p => (p.1, p.2, false))).1 t t' w
            = ((runGuarded {} (([(1, 1), (2, 2), (3, 3), (4, 4), (5, 5)] :
                List (ℚ × ℚ)).map fun p => (p.1, p.2, false))).1, .rejected))
      ∧ (∀ t t' w,
          ({} : CircuitBreaker).recovery
              ≤ t - (runGuarded {} (([(1, 1), (2, 2), (3, 3), (4, 4), (5, 5)] :
                  List (ℚ × ℚ)).map fun p => (p.1, p.2, false))).1.last_failure →
          (guardedStep (runGuarded {} (([(1, 1), (2, 2), (3, 3), (4, 4), (5, 5)] :
              List (ℚ × ℚ)).map fun p => (p.1, p.2, false))).1 t t' w).2
            = (if w then GuardResult.completed else .failed))
      ∧ (∀ cb' t t', cb'.is_open t = false →
          guardedStep cb' t t' true = (cb'.exitSuccess, .completed)
          ∧ cb'.exitSuccess.failures = 0 ∧ cb'.exitSuccess.state = .closed)) :=
  ⟨by decide, rfl, rfl, rfl,
    circuit_breaker_trip_recover {} (by decide) rfl rfl
      [(1, 1), (2, 2), (3, 3), (4, 4), (5, 5)] rfl⟩

/-! ### `infrastructure/worker.py` : `_process_chunk` -/

/-- Outcome of one `service.fetch_and_cache` call for a chunk: success, a
`DjangoValidationError` (never retried), or any other exception —
including `TimeoutError` from the `asyncio.timeout` guard (retried). -/
inductive DomainOutcome where
  | ok
  | validationError
  | otherError
deriving DecidableEq

/-- How `_process_chunk` ends: `skipped` = the dedup re-check found
nothing new, return before any attempt; `succeeded`; `failedValidation k`
= `DjangoValidationError` re-raised from attempt `k` (1-based);
`failedExhausted` = the last error re-raised after the final attempt;
`failedClientError` = `RuntimeError("Redis client not initialized")`
raised by the dedup re-check itself, before the retry loop. -/
inductive ChunkResult where
  | skipped
  | succeeded
  | failedValidation (attempt : ℕ)
  | failedExhausted
  | failedClientError
deriving DecidableEq

/-- Whether the chunk's task raised (counted by `run_concurrently` in
`len(eg.exceptions)`). -/
def ChunkResult.isFailure : ChunkResult → Bool
  | .failedValidation _ => true
  | .failedExhausted => true
  | .failedClientError => true
  | _ => false

/-- Trace of the `_process_chunk` retry loop: final result, number of
attempts executed, and the backoff sleeps
(`RETRY_DELAY_S * 2 ** (attempt - 1)` after each failed non-final
attempt). -/
structure ChunkTrace where
  result : ChunkResult
  attempts : ℕ
  sleeps : List ℚ
deriving DecidableEq

/-- The `for attempt in range(1, MAX_RETRIES + 1)` loop of
`_process_chunk`: `att n` is the outcome of attempt `n` (1-based);
`r` counts the remaining iterations. -/
def chunkLoop (att : ℕ → DomainOutcome) (maxRetries : ℕ) (base : ℚ) :
    ℕ → ℕ → ChunkTrace
  | 0, _ => ⟨.failedExhausted, 0, []⟩
  | r + 1, attempt =>
    match att attempt with
    | .ok => ⟨.succeeded, 1, []⟩
    | .validationError => ⟨.failedValidation attempt, 1, []⟩
    | .otherError =>
      if maxRetries ≤ attempt then ⟨.failedExhausted, 1, []⟩
      else
        ⟨(chunkLoop att maxRetries base r (attempt + 1)).result,
         (chunkLoop att maxRetries base r (attempt + 1)).attempts + 1,
         base * 2 ^ (attempt - 1) :: (chunkLoop att maxRetries base r (attempt + 1)).sleeps⟩

/-- The retry loop entered at attempt 1 (meaningful for
`0 < maxRetries`; with `MAX_RETRIES = 0` the Python loop body never
runs). -/
def chunkRun (att : ℕ → DomainOutcome) (maxRetries : ℕ) (base : ℚ) : ChunkTrace :=
  chunkLoop att maxRetries base maxRetries 1

theorem chunkLoop_exhausted (att : ℕ → DomainOutcome) (mr : ℕ) (base : ℚ) :
    ∀ (r a : ℕ), a + r = mr + 1 → 0 < r →
      (∀ n, a ≤ n → n ≤ mr → att n = .otherError) →
      (chunkLoop att mr base r a).result = .failedExhausted
      ∧ (chunkLoop att mr base r a).attempts = mr - a + 1
      ∧ (chunkLoop att mr base r a).sleeps.length = mr - a := by
  intro r
  induction r with
  | zero => intro a _ h0; exact absurd h0 (by omega)
  | succ r ih =>
    intro a ha _ herr
    have he : att a = .otherError := herr a le_rfl (by omega)
    unfold chunkLoop
    rw [he]
    by_cases hm : mr ≤ a
    · rw [if_pos hm]
      exact ⟨rfl, by show 1 = mr - a + 1; omega, by show (0 : ℕ) = mr - a; omega⟩
    · rw [if_neg hm]
      have hrec := ih (a + 1) (by omega) (by omega)
        (fun n hn hn' => herr n (by omega) hn')
      refine ⟨hrec.1, ?_, ?_⟩
      · show (chunkLoop att mr base r (a + 1)).attempts + 1 = mr - a + 1
        rw [hrec.2.1]
        omega
      · show (chunkLoop att mr base r (a + 1)).sleeps.length + 1 = mr - a
        rw [hrec.2.2]
        omega

theorem chunkLoop_validation (att : ℕ → DomainOutcome) (mr : ℕ) (base : ℚ) :
    ∀ (r a k : ℕ), a ≤ k → k ≤ mr → a + r = mr + 1 →
      att k = .validationError →
      (∀ j, a ≤ j → j < k → att j = .otherError) →
      (chunkLoop att mr base r a).result = .failedValidation k
      ∧ (chunkLoop att mr base r a).attempts = k - a + 1
      ∧ (chunkLoop att mr base r a).sleeps.length = k - a := by
  intro r
  induction r with
  | zero => intro a k hak hk ha; exact absurd ha (by omega)
  | succ r ih =>
    intro a k hak hk ha hval hpr
    by_cases hae : a = k
    · subst hae
      unfold chunkLoop
      rw [hval]
      exact ⟨rfl, by show 1 = a - a + 1; omega, by show (0 : ℕ) = a - a; omega⟩
    · have hlt : a < k := by omega
      have he : att a = .otherError := hpr a le_rfl hlt
      unfold chunkLoop
      rw [he]
      rw [if_neg (by omega)]
      have hrec := ih (a + 1) k (by omega) hk (by omega) hval
        (fun j hj hj' => hpr j (by omega) hj')
      refine ⟨hrec.1, ?_, ?_⟩
      · show (chunkLoop att mr base r (a + 1)).attempts + 1 = k - a + 1
        rw [hrec.2.1]
        omega
      · show (chunkLoop att mr base r (a + 1)).sleeps.length + 1 = k - a
        rw [hrec.2.2]
        omega

theorem chunkLoop_sleeps (att : ℕ → DomainOutcome) (mr : ℕ) (base : ℚ) :
    ∀ (r a k : ℕ) (p : ℚ),
      (chunkLoop att mr base r a).sleeps[k]? = some p → p = base * 2 ^ (a + k - 1) := by
  intro r
  induction r with
  | zero => intro a k p hp; simp [chunkLoop] at hp
  | succ r ih =>
    intro a k p hp
    unfold chunkLoop at hp
    cases h : att a <;> rw [h] at hp
    · simp at hp
    · simp at hp
    · by_cases hm : mr ≤ a
      · rw [if_pos hm] at hp; simp at hp
      · rw [if_neg hm] at hp
        simp only at hp
        cases k with
        | zero =>
          simp only [List.getElem?_cons_zero, Option.some.injEq] at hp
          rw [← hp]
          have : a + 0 - 1 = a - 1 := by omega
          rw [this]
        | succ k =>
          simp only [List.getElem?_cons_succ] at hp
          have h2 := ih (a + 1) k p hp
          rw [h2]
          have : a + 1 + k - 1 = a + (k + 1) - 1 := by omega
          rw [this]

/-- C8 counterexample: with the default retry budget
(`MAX_RETRIES = 3`) and a chunk whose domain action always raises a
retryable error, `_process_chunk` executes the action exactly 3 times
(2 retries, 2 backoff sleeps) and then lets the last error propagate — it
is not retried 3 times (which would be 4 executions), as the claim's
"retried up to MAX_RETRIES (default 3)" demands. -/
theorem chunk_retry_counterexample :
    (chunkRun (fun _ => .otherError) 3 1).attempts = 3
    ∧ (chunkRun (fun _ => .otherError) 3 1).result = .failedExhausted
    ∧ (chunkRun (fun _ => .otherError) 3 1).sleeps.length = 2
    ∧ ¬ (chunkRun (fun _ => .otherError) 3 1).attempts = 1 + 3 := by
  refine ⟨rfl, rfl, rfl, ?_⟩
  intro h
  simp [chunkRun, chunkLoop] at h

/-- C8 amended (chunk retry policy): a `DjangoValidationError` at
attempt `k` propagates immediately — no further attempt and no backoff
sleep after it; a persistently failing retryable error is retried
`MAX_RETRIES - 1` times (`MAX_RETRIES` total attempts) with backoff sleep
`base * 2^(attempt-1)` between consecutive attempts, after which the last
error propagates (the chunk counts as failed, `isFailure`). -/
theorem chunk_retry_policy (att : ℕ → DomainOutcome) (mr : ℕ) (hmr : 0 < mr) (base : ℚ) :
    ((∀ n, 1 ≤ n → n ≤ mr → att n = .otherError) →
      (chunkRun att mr base).result = .failedExhausted
      ∧ (chunkRun att mr base).result.isFailure = true
      ∧ (chunkRun att mr base).attempts = mr
      ∧ (chunkRun att mr base).sleeps.length = mr - 1)
    ∧ (∀ k, 1 ≤ k → k ≤ mr → att k = .validationError →
        (∀ j, 1 ≤ j → j < k → att j = .otherError) →
        (chunkRun att mr base).result = .failedValidation k
        ∧ (chunkRun att mr base).result.isFailure = true
        ∧ (chunkRun att mr base).attempts = k
        ∧ (chunkRun att mr base).sleeps.length = k - 1)
    ∧ (∀ k p, (chunkRun att mr base).sleeps[k]? = some p → p = base * 2 ^ k) := by
  refine ⟨?_, ?_, ?_⟩
  · intro herr
    have h := chunkLoop_exhausted att mr base mr 1 (by omega) hmr
      (fun n hn hn' => herr n hn hn')
    have hres : (chunkRun att mr base).result = .failedExhausted := h.1
    refine ⟨hres, by rw [hres]; rfl, ?_, ?_⟩
    · have h2 : (chunkRun att mr base).attempts = mr - 1 + 1 := h.2.1
      rw [h2]; omega
    · have h3 : (chunkRun att mr base).sleeps.length = mr - 1 := h.2.2
      rw [h3]
  · intro k hk1 hkm hval hpr
    have h := chunkLoop_validation att mr base mr 1 k hk1 hkm (by omega) hval
      (fun j hj hj' => hpr j hj hj')
    have hres : (chunkRun att mr base).result = .failedValidation k := h.1
    refine ⟨hres, by rw [hres]; rfl, ?_, ?_⟩
    · have h2 : (chunkRun att mr base).attempts = k - 1 + 1 := h.2.1
      rw [h2]; omega
    · have h3 : (chunkRun att mr base).sleeps.length = k - 1 := h.2.2
      rw [h3]
  · intro k p hp
    have h := chunkLoop_sleeps att mr base mr 1 k p hp
    rw [h]
    have : 1 + k - 1 = k := by omega
    rw [this]

/-- Witness for C8 (amended): default budget `MAX_RETRIES = 3`, base
delay 1, domain action failing with a retryable error at every attempt. -/
theorem chunk_retry_policy_witness :
    0 < 3
    ∧ ((chunkRun (fun _ => .otherError) 3 1).result = .failedExhausted
      ∧ (chunkRun (fun _ => .otherError) 3 1).result.isFailure = true
      ∧ (chunkRun (fun _ => .otherError) 3 1).attempts = 3
      ∧ (chunkRun (fun _ => .otherError) 3 1).sleeps.length = 3 - 1) :=
  ⟨by decide,
    (chunk_retry_policy (fun _ => .otherError) 3 (by decide) 1).1 (fun _ _ _ => rfl)⟩

/-- Observable calls of the consumer while handling one message, in
program order: `recordBatchStart` (`metrics.record_batch_start`),
`enterCircuitBreaker` (`async with circuit_breaker`), `dedupStoreCall`
(`filter_processed` / `mark_processed` against Redis), `processChunkCall`
(`_process_chunk` task), `domainActionCall` (`service.fetch_and_cache`),
and the metric records. -/
inductive WorkerEffect where
  | recordBatchStart
  | enterCircuitBreaker
  | dedupStoreCall (ids : List ℕ)
  | processChunkCall (ids : List ℕ)
  | domainActionCall (ids : List ℕ)
  | recordSuccess (size : ℕ)
  | recordFailure (size failed : ℕ)
deriving DecidableEq

/-- Whether an effect is a `service.fetch_and_cache` invocation. -/
def WorkerEffect.isDomainAction : WorkerEffect → Bool
  | .domainActionCall _ => true
  | _ => false

/-- Model of `_process_chunk(ids, service=service, force=force)` with the
dedup store threaded through.  With `force` the checker is never touched
and the retry loop runs directly (no `mark_processed` on success either).
Without `force`, `worker.py` line 188 constructs
`RedisProcessedIDChecker(key="processed:match_ids")` with no client and
never enters its context manager, so the `filter_processed` re-check
behaves per `processed_ids.py` lines 102-107: for an empty ID set it
returns the empty set (before the client check) and the chunk is skipped;
for any non-empty set it raises
`RuntimeError("Redis client not initialized")` before touching the store,
before the retry loop, and before the domain action — the chunk task
fails and nothing is marked.  Returns `(updated store, chunk result)`. -/
def process_chunk (store : Finset ℕ) (ids : List ℕ) (force : Bool)
    (att : ℕ → DomainOutcome) (mr : ℕ) (base : ℚ) (_fbs : ℕ) : Finset ℕ × ChunkResult :=
  if force then
    (store, (chunkRun att mr base).result)
  else
    if ids.isEmpty then (store, .skipped)
    else (store, .failedClientError)

/-- The calls one chunk task makes, from `_process_chunk`.  Forced: one
domain-action call per executed attempt (the checker is never touched).
Non-forced: the dedup re-check call is made and then — empty input aside —
raises the uninitialised-client `RuntimeError`, so the domain action and
the success-path `mark_processed` are never reached. -/
def process_chunk_effects (_store : Finset ℕ) (c : List ℕ) (force : Bool)
    (att : ℕ → DomainOutcome) (mr : ℕ) (base : ℚ) (_fbs : ℕ) : List WorkerEffect :=
  WorkerEffect.processChunkCall c ::
  (if force then
    List.replicate (chunkRun att mr base).attempts (.domainActionCall c)
  else
    [WorkerEffect.dedupStoreCall c])

/-- The chunk fan-out of `run_concurrently` inside the circuit-breaker
body: each chunk `i` is processed with its own domain-action outcomes
`att i`, the dedup store threaded through.  The chunks are modelled as
each running to completion (the per-chunk results are what
`asyncio.TaskGroup` collects into the exception group; a failure would
additionally cancel unfinished siblings, which only reduces the work done
and does not affect the dedup marking already performed). -/
def runChunksAux (force : Bool) (att : ℕ → ℕ → DomainOutcome) (mr : ℕ) (base : ℚ)
    (fbs : ℕ) : ℕ → Finset ℕ → List (List ℕ) → Finset ℕ × List ChunkResult × List WorkerEffect
  | _, store, [] => (store, [], [])
  | i, store, c :: cs =>
      ((runChunksAux force att mr base fbs (i + 1)
          (process_chunk store c force (att i) mr base fbs).1 cs).1,
       (process_chunk store c force (att i) mr base fbs).2
         :: (runChunksAux force att mr base fbs (i + 1)
              (process_chunk store c force (att i) mr base fbs).1 cs).2.1,
       process_chunk_effects store c force (att i) mr base fbs
         ++ (runChunksAux force att mr base fbs (i + 1)
              (process_chunk store c force (att i) mr base fbs).1 cs).2.2)

/-- All chunks of one batch, 0-indexed: final store, per-chunk results,
and the calls made. -/
def runChunks (store : Finset ℕ) (chunks : List (List ℕ)) (force : Bool)
    (att : ℕ → ℕ → DomainOutcome) (mr : ℕ) (base : ℚ) (fbs : ℕ) :
    Finset ℕ × List ChunkResult × List WorkerEffect :=
  runChunksAux force att mr base fbs 0 store chunks

/-- C2 (partial batch failure accounting) — evaluation at the failing
input: empty store, batch of 3 chunks `[1,2] [3,4] [5,6]`, `force=False`,
chunk 1's domain action set up to always raise `DjangoValidationError`
and chunks 0 and 2's to succeed.  The code never gets that far: every
non-forced chunk raises `RuntimeError("Redis client not initialized")`
from the dedup re-check (the checker is constructed without a client),
so all 3 chunks fail, the aggregate is 3 failed / 0 succeeded — not the
claimed 1 / 2 — the domain action is never invoked, and no ID at all is
marked processed (in particular not the "successful" chunks' IDs 1, 2,
5, 6 that the claim requires to be marked). -/
theorem process_chunk_client_error :
    (runChunks ∅ [[1, 2], [3, 4], [5, 6]] false
        (fun i _ => if i = 1 then .validationError else .ok) 3 1 1000).2.1
      = [.failedClientError, .failedClientError, .failedClientError]
    ∧ ((runChunks ∅ [[1, 2], [3, 4], [5, 6]] false
        (fun i _ => if i = 1 then .validationError else .ok) 3 1 1000).2.1.filter
          ChunkResult.isFailure).length = 3
    ∧ ¬ ((runChunks ∅ [[1, 2], [3, 4], [5, 6]] false
        (fun i _ => if i = 1 then .validationError else .ok) 3 1 1000).2.1.filter
          ChunkResult.isFailure).length = 1
    ∧ ((runChunks ∅ [[1, 2], [3, 4], [5, 6]] false
        (fun i _ => if i = 1 then .validationError else .ok) 3 1 1000).2.2.filter
          WorkerEffect.isDomainAction) = []
    ∧ (runChunks ∅ [[1, 2], [3, 4], [5, 6]] false
        (fun i _ => if i = 1 then .validationError else .ok) 3 1 1000).1 = ∅
    ∧ 1 ∉ (runChunks ∅ [[1, 2], [3, 4], [5, 6]] false
        (fun i _ => if i = 1 then .validationError else .ok) 3 1 1000).1
    ∧ 2 ∉ (runChunks ∅ [[1, 2], [3, 4], [5, 6]] false
        (fun i _ => if i = 1 then .validationError else .ok) 3 1 1000).1
    ∧ 5 ∉ (runChunks ∅ [[1, 2], [3, 4], [5, 6]] false
        (fun i _ => if i = 1 then .validationError else .ok) 3 1 1000).1
    ∧ 6 ∉ (runChunks ∅ [[1, 2], [3, 4], [5, 6]] false
        (fun i _ => if i = 1 then .validationError else .ok) 3 1 1000).1 := by
  decide

/-! ### `infrastructure/worker.py` : `WorkerMetrics` and `process_match_batch` -/

/-- Model of `WorkerMetrics` counters; durations are rationals, the
`last_activity`/`startup_time` wall-clock timestamps are tracked only
through the `recordBatchStart` effect. -/
structure WorkerMetrics where
  batches_processed : ℕ := 0
  batches_failed : ℕ := 0
  items_processed : ℕ := 0
  items_failed : ℕ := 0
  total_processing_time : ℚ := 0
  average_batch_size : ℚ := 0
deriving DecidableEq

/-- Model of `WorkerMetrics._update_avg`. -/
def WorkerMetrics.update_avg (m : WorkerMetrics) (size : ℕ) : WorkerMetrics :=
  if 0 < m.batches_processed + m.batches_failed then
    { m with average_batch_size :=
        (m.average_batch_size * (((m.batches_processed + m.batches_failed : ℕ) : ℚ) - 1)
            + (size : ℚ))
          / ((m.batches_processed + m.batches_failed : ℕ) : ℚ) }
  else m

/-- Model of `WorkerMetrics.record_success(size, dur)`: increment the counters,
then `_update_avg(size)`. -/
def WorkerMetrics.record_success (m : WorkerMetrics) (size : ℕ) (dur : ℚ) : WorkerMetrics :=
  WorkerMetrics.update_avg
    { m with
      batches_processed := m.batches_processed + 1
      items_processed := m.items_processed + size
      total_processing_time := m.total_processing_time + dur } size

/-- Model of `WorkerMetrics.record_failure(size, failed_items)`. -/
def WorkerMetrics.record_failure (m : WorkerMetrics) (size failed_items : ℕ) : WorkerMetrics :=
  WorkerMetrics.update_avg
    { m with
      batches_failed := m.batches_failed + 1
      items_failed := m.items_failed + failed_items } size

theorem update_avg_counts (m : WorkerMetrics) (size : ℕ) :
    (m.update_avg size).batches_processed = m.batches_processed
    ∧ (m.update_avg size).batches_failed = m.batches_failed
    ∧ (m.update_avg size).items_processed = m.items_processed
    ∧ (m.update_avg size).items_failed = m.items_failed := by
  unfold WorkerMetrics.update_avg
  split <;> exact ⟨rfl, rfl, rfl, rfl⟩

/-- Model of `MatchBatchPayload` from `common/messaging/types.py` (field defaults
as in the Pydantic model; `timestamp` is a wall-clock epoch). -/
structure MatchBatchPayload where
  match_ids : List ℕ
  force_update : Bool := false
  batch_id : String := ""
  batch_number : ℕ := 1
  total_batches : ℕ := 1
  timestamp : ℚ := 0
  priority : ℕ := 5
  concurrency : ℕ := 10

/-- The `process_match_batch` subscriber of `infrastructure/worker.py`
for an already-decoded payload: record the batch start; if `match_ids`
is empty, record one successful batch of size 0 and return; otherwise
slice into chunks of `bs` (= the broker `BATCH_SIZE`) and run
`run_concurrently` — enter the circuit breaker at `tEnter` (failing fast
if open, leaving metrics, breaker and store untouched), fan out the
chunks, and on exit record success (duration `dur`) or failure (count of
failed chunks) in the metrics and apply the breaker's `__aexit__` at
`tExit`.  Returns `(effects, metrics, breaker, store)`. -/
def process_match_batch (payload : MatchBatchPayload) (m : WorkerMetrics)
    (cb : CircuitBreaker) (store : Finset ℕ) (att : ℕ → ℕ → DomainOutcome)
    (bs mr : ℕ) (base : ℚ) (fbs : ℕ) (tEnter tExit dur : ℚ) :
    List WorkerEffect × WorkerMetrics × CircuitBreaker × Finset ℕ :=
  if payload.match_ids.isEmpty then
    ([.recordBatchStart, .recordSuccess 0], m.record_success 0 0, cb, store)
  else
    if cb.is_open tEnter then
      ([.recordBatchStart, .enterCircuitBreaker], m, cb, store)
    else
      if ((runChunks store (chunked payload.match_ids bs) payload.force_update att mr base
            fbs).2.1.filter ChunkResult.isFailure).length = 0 then
        (WorkerEffect.recordBatchStart :: WorkerEffect.enterCircuitBreaker ::
            ((runChunks store (chunked payload.match_ids bs) payload.force_update att mr base
                fbs).2.2
              ++ [WorkerEffect.recordSuccess (chunked payload.match_ids bs).length]),
         m.record_success (chunked payload.match_ids bs).length dur,
         cb.exitSuccess,
         (runChunks store (chunked payload.match_ids bs) payload.force_update att mr base
            fbs).1)
      else
        (WorkerEffect.recordBatchStart :: WorkerEffect.enterCircuitBreaker ::
            ((runChunks store (chunked payload.match_ids bs) payload.force_update att mr base
                fbs).2.2
              ++ [WorkerEffect.recordFailure (chunked payload.match_ids bs).length
                    ((runChunks store (chunked payload.match_ids bs) payload.force_update att
                        mr base fbs).2.1.filter ChunkResult.isFailure).length]),
         m.record_failure (chunked payload.match_ids bs).length
           ((runChunks store (chunked payload.match_ids bs) payload.force_update att mr base
              fbs).2.1.filter ChunkResult.isFailure).length,
         cb.exitFailure tExit,
         (runChunks store (chunked payload.match_ids bs) payload.force_update att mr base
            fbs).1)

/-- Effects that touch the breaker, the chunk processor, the domain
action, or the dedup store. -/
def WorkerEffect.isWork : WorkerEffect → Bool
  | .enterCircuitBreaker => true
  | .processChunkCall _ => true
  | .dedupStoreCall _ => true
  | .domainActionCall _ => true
  | _ => false

def WorkerEffect.isRecordSuccess : WorkerEffect → Bool
  | .recordSuccess _ => true
  | _ => false

/-- C10 (empty-batch message is a no-op success): a decoded payload
with an empty `match_ids` list makes the handler return immediately:
no circuit-breaker entry, no chunk processing, no domain action, no dedup
store call; the metrics record exactly one successful batch of size 0
(`batches_processed + 1`, all other counters unchanged), and breaker and
store are untouched. -/
theorem empty_batch_noop (payload : MatchBatchPayload) (hid : payload.match_ids = [])
    (m : WorkerMetrics) (cb : CircuitBreaker) (store : Finset ℕ)
    (att : ℕ → ℕ → DomainOutcome) (bs mr : ℕ) (base : ℚ) (fbs : ℕ)
    (tEnter tExit dur : ℚ) :
    process_match_batch payload m cb store att bs mr base fbs tEnter tExit dur
      = ([.recordBatchStart, .recordSuccess 0], m.record_success 0 0, cb, store)
    ∧ ((process_match_batch payload m cb store att bs mr base fbs tEnter tExit dur).1.filter
        WorkerEffect.isWork) = []
    ∧ ((process_match_batch payload m cb store att bs mr base fbs tEnter tExit dur).1.filter
        WorkerEffect.isRecordSuccess) = [.recordSuccess 0]
    ∧ (m.record_success 0 0).batches_processed = m.batches_processed + 1
    ∧ (m.record_success 0 0).batches_failed = m.batches_failed
    ∧ (m.record_success 0 0).items_processed = m.items_processed
    ∧ (m.record_success 0 0).items_failed = m.items_failed := by
  have hun : process_match_batch payload m cb store att bs mr base fbs tEnter tExit dur
      = ([.recordBatchStart, .recordSuccess 0], m.record_success 0 0, cb, store) := by
    unfold process_match_batch
    rw [hid]
    rfl
  have hcounts := update_avg_counts
    { m with
      batches_processed := m.batches_processed + 1
      items_processed := m.items_processed + 0
      total_processing_time := m.total_processing_time + 0 } 0
  refine ⟨hun, by rw [hun]; rfl, by rw [hun]; rfl, ?_, ?_, ?_, ?_⟩
  · exact hcounts.1
  · exact hcounts.2.1
  · exact hcounts.2.2.1
  · exact hcounts.2.2.2

/-- Witness for C10: a concrete empty-batch payload against fresh
metrics, a fresh breaker, and an empty store. -/
theorem empty_batch_noop_witness :
    ({ match_ids := [] } : MatchBatchPayload).match_ids = []
    ∧ (process_match_batch { match_ids := [] } {} {} ∅ (fun _ _ => .ok) 100 3 1 1000 0 0 0
        = ([.recordBatchStart, .recordSuccess 0],
           WorkerMetrics.record_success {} 0 0, {}, ∅)
      ∧ ((process_match_batch { match_ids := [] } {} {} ∅ (fun _ _ => .ok) 100 3 1 1000
            0 0 0).1.filter WorkerEffect.isWork) = []
      ∧ ((process_match_batch { match_ids := [] } {} {} ∅ (fun _ _ => .ok) 100 3 1 1000
            0 0 0).1.filter WorkerEffect.isRecordSuccess) = [.recordSuccess 0]
      ∧ (WorkerMetrics.record_success {} 0 0).batches_processed
          = ({} : WorkerMetrics).batches_processed + 1
      ∧ (WorkerMetrics.record_success {} 0 0).batches_failed
          = ({} : WorkerMetrics).batches_failed
      ∧ (WorkerMetrics.record_success {} 0 0).items_processed
          = ({} : WorkerMetrics).items_processed
      ∧ (WorkerMetrics.record_success {} 0 0).items_failed
          = ({} : WorkerMetrics).items_failed) :=
  ⟨rfl, empty_batch_noop { match_ids := [] } rfl {} {} ∅ (fun _ _ => .ok) 100 3 1 1000 0 0 0⟩

/-! ### Exception classes of the pipeline

The Python classes relevant to the consumer and publisher error paths,
with their subclass relation, as defined in the source:
`BrokerPublishError(RuntimeError)` in `common/messaging/reliable.py`;
the circuit breaker raises the built-in `RuntimeError` directly
(`infrastructure/worker.py` line 115); `_process_chunk` re-raises
`django.core.exceptions.ValidationError`; and
`RedisProcessedIDChecker.filter_processed` raises the built-in
`RuntimeError` when its client is not initialised — which is exactly the
state `_process_chunk` constructs it in (`RedisProcessedIDChecker(key=…)`
with no client). -/
inductive ExcClass where
  | exceptionBase
  | runtimeError
  | brokerPublishError
  | djangoValidationError
  | redisError
  | timeoutErrorClass
  | cancelledErrorClass
deriving DecidableEq

/-- Reflexive-transitive subclass relation of the classes above
(`BrokerPublishError < RuntimeError < Exception`, the others direct
subclasses of `Exception`; `CancelledError` inherits `BaseException`). -/
def subclassOf : ExcClass → ExcClass → Bool
  | .brokerPublishError, .runtimeError => true
  | .brokerPublishError, .exceptionBase => true
  | .runtimeError, .exceptionBase => true
  | .djangoValidationError, .exceptionBase => true
  | .redisError, .exceptionBase => true
  | .timeoutErrorClass, .exceptionBase => true
  | c, d => c == d

/-- The class of the open-circuit rejection:
`raise RuntimeError(msg)` in `CircuitBreaker.__aenter__`. -/
def circuitOpenErrorClass : ExcClass := .runtimeError

/-- The class of publish exhaustion: `raise BrokerPublishError(msg)`. -/
def publishExhaustionErrorClass : ExcClass := .brokerPublishError

/-- Exception classes the guarded chunk work itself can raise, from
`_process_chunk`: the re-raised `DjangoValidationError`; `RuntimeError`
from `RedisProcessedIDChecker.filter_processed` (uninitialised client);
`RedisError` from the store; `TimeoutError` from `asyncio.timeout`; and
arbitrary exceptions from `service.fetch_and_cache`. -/
def wrappedWorkErrorClasses : List ExcClass :=
  [.djangoValidationError, .runtimeError, .redisError, .timeoutErrorClass, .exceptionBase]

/-- C9 counterexample: the open-circuit rejection is a plain
`RuntimeError`, and `RuntimeError` is among the classes the wrapped work
itself raises (the dedup re-check inside `_process_chunk` raises
`RuntimeError` for an uninitialised client) — so the rejection's type is
not distinct from the error types of the wrapped work. -/
theorem circuit_open_error_not_distinct :
    circuitOpenErrorClass = ExcClass.runtimeError
    ∧ circuitOpenErrorClass ∈ wrappedWorkErrorClasses := by
  decide

/-- C9 amended: when the breaker is open and within the recovery
window, a guarded attempt fails fast without attempting the wrapped call
(`rejected`, state unchanged); the raised class is the built-in
`RuntimeError`, which differs as a class from `DjangoValidationError` and
from `BrokerPublishError` (itself a `RuntimeError` subclass) — but it is
not distinct from the wrapped work's own error types, which include
`RuntimeError`. -/
theorem circuit_open_rejection (cb : CircuitBreaker) (t t' : ℚ) (w : Bool)
    (hio : cb.is_open t = true) :
    guardedStep cb t t' w = (cb, .rejected)
    ∧ circuitOpenErrorClass = ExcClass.runtimeError
    ∧ circuitOpenErrorClass ≠ publishExhaustionErrorClass
    ∧ circuitOpenErrorClass ≠ ExcClass.djangoValidationError
    ∧ subclassOf publishExhaustionErrorClass circuitOpenErrorClass = true
    ∧ circuitOpenErrorClass ∈ wrappedWorkErrorClasses :=
  ⟨by simp [guardedStep, hio], rfl, by decide, by decide, rfl, by decide⟩

/-- Witness for C9 (amended): a breaker that tripped at time 0 with the
default recovery window, attempted again at time 1. -/
theorem circuit_open_rejection_witness :
    ({ failures := 5, last_failure := 0, state := .opened } : CircuitBreaker).is_open 1
        = true
    ∧ (guardedStep { failures := 5, last_failure := 0, state := .opened } 1 2 true
        = ({ failures := 5, last_failure := 0, state := .opened }, .rejected)
      ∧ circuitOpenErrorClass = ExcClass.runtimeError
      ∧ circuitOpenErrorClass ≠ publishExhaustionErrorClass
      ∧ circuitOpenErrorClass ≠ ExcClass.djangoValidationError
      ∧ subclassOf publishExhaustionErrorClass circuitOpenErrorClass = true
      ∧ circuitOpenErrorClass ∈ wrappedWorkErrorClasses) := by
  have hio : ({ failures := 5, last_failure := 0, state := .opened } :
      CircuitBreaker).is_open 1 = true := by
    simp only [CircuitBreaker.is_open]
    norm_num
  exact ⟨hio, circuit_open_rejection _ 1 2 true hio⟩

end Dota
